import Mathlib

/-!
Shallow embedding of the qcodes_logger repository:
  * `src/must_update_parameter.py` — the `MustUpdateParameter` cell
    (`get_raw`, `set_raw`) and the sweep `check_parameters_updated`;
  * `src/dynamic_station.py` — `DynamicStation.adjust_station_to_meas_setup`.

Python values stored in a cell are modelled as `Option α`, with `none`
standing for Python `None` (the initial `self._value = None`); Python
exceptions are modelled as `Except` errors carrying the data the message
interpolates.  Mutation is modelled by explicit state passing: an `Except`
error means the Python object was left unchanged, since every `raise` in the
source happens before any attribute assignment.
-/

/-- Exceptions raised by the cell operations and the sweep, distinguished by
the message the Python source formats: the already-read message of `get_raw`,
the must-differ message of `set_raw`, and the already-recorded message of
`check_parameters_updated` (which carries the label, current value and unit). -/
inductive QcodesError (α : Type) where
  | staleReadError (name : String)
  | nonDistinctValueError
  | staleParameterError (label : String) (value : Option α) (unit : String)
deriving DecidableEq

/-- State of a `MustUpdateParameter`: the attributes set in `__init__` of
`src/must_update_parameter.py` (`_latest_value_in_measurement`,
`_latest_value_read`, `_new_value_must_differ`, `_value`, `strict`) together
with the qcodes `name`, `label` and `unit` attributes used in messages. -/
structure MustUpdateParameter (α : Type) where
  name : String
  label : String
  unit : String
  latest_value_in_measurement : Bool
  latest_value_read : Bool
  new_value_must_differ : Bool
  value : Option α
  strict : Bool
deriving DecidableEq

/-- `MustUpdateParameter.__init__`: flags start `False`, `_value` starts
`None`; the label defaults to the name when no label was passed. -/
def MustUpdateParameter.init {α : Type} (name : String)
    (new_value_must_differ : Bool) (strict : Bool)
    (label : Option String) (unit : String) : MustUpdateParameter α :=
  { name := name
    label := label.getD name
    unit := unit
    latest_value_in_measurement := false
    latest_value_read := false
    new_value_must_differ := new_value_must_differ
    value := none
    strict := strict }

/-- `MustUpdateParameter.get_raw`: raises when the latest value was already
read and the cell is strict; otherwise marks the value read and returns it. -/
def MustUpdateParameter.get_raw {α : Type} (c : MustUpdateParameter α) :
    Except (QcodesError α) (Option α × MustUpdateParameter α) :=
  if c.latest_value_read = true ∧ c.strict = true then
    .error (.staleReadError c.name)
  else
    .ok (c.value, { c with latest_value_read := true })

/-- `MustUpdateParameter.set_raw`: raises when the new value equals the stored
one and `_new_value_must_differ` holds; otherwise stores the value and clears
both flags. -/
def MustUpdateParameter.set_raw {α : Type} [DecidableEq α]
    (c : MustUpdateParameter α) (val : Option α) :
    Except (QcodesError α) (MustUpdateParameter α) :=
  if c.value = val ∧ c.new_value_must_differ = true then
    .error .nonDistinctValueError
  else
    .ok { c with
      latest_value_in_measurement := false
      latest_value_read := false
      value := val }

/-- The mark placed by a successful sweep step:
`param._latest_value_in_measurement = True`. -/
def markConsumed {α : Type} (p : MustUpdateParameter α) : MustUpdateParameter α :=
  { p with latest_value_in_measurement := true }

/-- `check_parameters_updated` over an explicit list of cells: walks the list
in order; on the first cell whose `_latest_value_in_measurement` is `True` it
builds the error message, which itself calls `param()` (that is, `get_raw`),
so a failing `get_raw` propagates its own error; otherwise the cell is marked
consumed and the walk continues.  Returns the final state of every cell
together with the error, if any. -/
def check_parameters_updated {α : Type} :
    List (MustUpdateParameter α) →
      List (MustUpdateParameter α) × Option (QcodesError α)
  | [] => ([], none)
  | p :: rest =>
    if p.latest_value_in_measurement = true then
      match p.get_raw with
      | .error e => (p :: rest, some e)
      | .ok (v, p') => (p' :: rest, some (.staleParameterError p.label v p.unit))
    else
      let r := check_parameters_updated rest
      (markConsumed p :: r.1, r.2)

theorem check_parameters_updated_nil {α : Type} :
    check_parameters_updated ([] : List (MustUpdateParameter α)) = ([], none) :=
  rfl

theorem check_parameters_updated_cons_fresh {α : Type}
    (p : MustUpdateParameter α) (rest : List (MustUpdateParameter α))
    (h : p.latest_value_in_measurement = false) :
    check_parameters_updated (p :: rest) =
      (markConsumed p :: (check_parameters_updated rest).1,
       (check_parameters_updated rest).2) := by
  simp [check_parameters_updated, h]

theorem check_parameters_updated_cons_stale {α : Type}
    (p : MustUpdateParameter α) (rest : List (MustUpdateParameter α))
    (h : p.latest_value_in_measurement = true) :
    check_parameters_updated (p :: rest) =
      if p.latest_value_read = true ∧ p.strict = true then
        (p :: rest, some (.staleReadError p.name))
      else
        ({ p with latest_value_read := true } :: rest,
         some (.staleParameterError p.label p.value p.unit)) := by
  by_cases hr : p.latest_value_read = true ∧ p.strict = true <;>
    simp [check_parameters_updated, MustUpdateParameter.get_raw, h, hr]

theorem check_parameters_updated_all_fresh {α : Type}
    (ps : List (MustUpdateParameter α))
    (h : ∀ q ∈ ps, q.latest_value_in_measurement = false) :
    check_parameters_updated ps = (ps.map markConsumed, none) := by
  induction ps with
  | nil => rfl
  | cons p rest ih =>
    have hp : p.latest_value_in_measurement = false := h p (by simp)
    have hrest := ih (fun q hq => h q (by simp [hq]))
    simp [check_parameters_updated_cons_fresh p rest hp, hrest]

theorem check_parameters_updated_append_fresh {α : Type}
    (pre rest : List (MustUpdateParameter α))
    (h : ∀ q ∈ pre, q.latest_value_in_measurement = false) :
    check_parameters_updated (pre ++ rest) =
      (pre.map markConsumed ++ (check_parameters_updated rest).1,
       (check_parameters_updated rest).2) := by
  induction pre with
  | nil => simp
  | cons p pre ih =>
    have hp : p.latest_value_in_measurement = false := h p (by simp)
    have hpre := ih (fun q hq => h q (by simp [hq]))
    simp [check_parameters_updated_cons_fresh p _ hp, hpre]

/-- A qcodes component (Parameter or Instrument): identified in the Station by
its `name`; the `id` field keeps distinct Python objects distinguishable even
when they share a name, since `dynamic_station.py` compares components both by
object equality (set membership) and by name. -/
structure Component where
  name : String
  id : Nat
deriving DecidableEq

/-- Python `configs[k]`: looks a profile name up in the catalogue, raising a
`KeyError` (modelled by `Except.error k`) when the key is absent. -/
def configLookup (configs : List (String × List Component)) (k : String) :
    Except String (List Component) :=
  match configs.lookup k with
  | some cs => .ok cs
  | none => .error k

/-- `components_to_ensure = sum([configs[k] for k in config], [])`: the
profile member lists of the active keys, concatenated left to right, raising
the `KeyError` of the first missing key. -/
def componentsToEnsure (configs : List (String × List Component)) :
    List String → Except String (List Component)
  | [] => .ok []
  | k :: ks =>
    match configLookup configs k with
    | .error e => .error e
    | .ok cs =>
      match componentsToEnsure configs ks with
      | .error e => .error e
      | .ok rest => .ok (cs ++ rest)

/-- `components_to_remove`: the components of every profile whose key is not
in `config`, with the members of `components_to_ensure` removed
(`difference_update` works on object equality).  The Python `set` only feeds
name-membership tests afterwards, so it is kept as a list. -/
def componentsToRemove (configs : List (String × List Component))
    (config : List String) (toEnsure : List Component) : List Component :=
  (((configs.filter (fun pr => decide (pr.1 ∉ config))).map Prod.snd).flatten).filter
    (fun c => decide (c ∉ toEnsure))

/-- The `for component in self.components` loop: returns
(`must_remove_components`, warned names).  A name in the remove names and not
in the ensure names is marked for removal; otherwise a name not in the ensure
names triggers the untracked-component warning. -/
def sweepComponents (removeNames ensureNames : List String) :
    List String → List String × List String
  | [] => ([], [])
  | n :: rest =>
    let r := sweepComponents removeNames ensureNames rest
    if n ∈ removeNames ∧ n ∉ ensureNames then (n :: r.1, r.2)
    else if n ∉ ensureNames then (r.1, n :: r.2)
    else r

/-- The `for component in list(set(components_to_ensure))` loop: adds each
component whose name is not yet registered, checking against the station as
it grows.  Returns the final station and the components actually added. -/
def addComponents : List Component → List Component →
    List Component × List Component
  | st, [] => (st, [])
  | st, c :: rest =>
    if c.name ∈ st.map Component.name then addComponents st rest
    else
      let r := addComponents (st ++ [c]) rest
      (r.1, c :: r.2)

/-- Result of one `adjust_station_to_meas_setup` call: the station contents
afterwards, the names removed, the components added, and the names warned
about as untracked. -/
structure AdjustResult where
  station : List Component
  removed : List String
  added : List Component
  warnings : List String
deriving DecidableEq

/-- Body of `adjust_station_to_meas_setup` once `components_to_ensure` has
been computed: build the remove set, mark and remove the unused components,
then add the missing ensured ones (Python iterates `list(set(...))`, an
unspecified order over the distinct objects, modelled as `dedup`). -/
def adjustCore (configs : List (String × List Component)) (config : List String)
    (station : List Component) (toEnsure : List Component) : AdjustResult :=
  let toRemove := componentsToRemove configs config toEnsure
  let ensureNames := toEnsure.map Component.name
  let removeNames := toRemove.map Component.name
  let swept := sweepComponents removeNames ensureNames (station.map Component.name)
  let station1 := station.filter (fun c => decide (c.name ∉ swept.1))
  let afterAdd := addComponents station1 toEnsure.dedup
  { station := afterAdd.1
    removed := swept.1
    added := afterAdd.2
    warnings := swept.2 }

/-- `DynamicStation.adjust_station_to_meas_setup`: computes the ensure and
remove sets from the catalogue, removes the marked components, then adds the
missing ensured ones.  The only failure is the `KeyError` from `configs[k]`;
warnings do not interrupt the run. -/
def adjust_station_to_meas_setup (configs : List (String × List Component))
    (config : List String) (station : List Component) :
    Except String AdjustResult :=
  match componentsToEnsure configs config with
  | .error e => .error e
  | .ok toEnsure => .ok (adjustCore configs config station toEnsure)

/-- C1: counterexample — `__init__` sets `_latest_value_in_measurement` to
`False`, not `True`, and the consumption sweep over a freshly constructed
cell succeeds even though no set has been performed. -/
theorem c1_counterexample :
    (MustUpdateParameter.init "p" true true none "" :
        MustUpdateParameter Int).latest_value_in_measurement ≠ true ∧
    (check_parameters_updated
        [(MustUpdateParameter.init "p" true true none "" :
          MustUpdateParameter Int)]).2 = none := by
  decide

/-- C1 (amended): every newly constructed cell starts with value absent,
`readSinceSet` = false and `consumedByMeasurement` = false, so a consumption
sweep over the fresh cell succeeds at once, marking it consumed, even though
no set has been performed yet. -/
theorem c1_fresh_cell_state {α : Type} (nm : String) (nvmd st : Bool)
    (lbl : Option String) (u : String) :
    (MustUpdateParameter.init nm nvmd st lbl u : MustUpdateParameter α).value = none ∧
    (MustUpdateParameter.init nm nvmd st lbl u :
        MustUpdateParameter α).latest_value_read = false ∧
    (MustUpdateParameter.init nm nvmd st lbl u :
        MustUpdateParameter α).latest_value_in_measurement = false ∧
    check_parameters_updated
        [(MustUpdateParameter.init nm nvmd st lbl u : MustUpdateParameter α)] =
      ([markConsumed (MustUpdateParameter.init nm nvmd st lbl u)], none) := by
  refine ⟨rfl, rfl, rfl, ?_⟩
  have h := check_parameters_updated_all_fresh
    [(MustUpdateParameter.init nm nvmd st lbl u : MustUpdateParameter α)]
    (by simp [MustUpdateParameter.init])
  simpa using h

/-- C1 (amended) witness at a concrete fresh cell. -/
theorem c1_fresh_cell_state_witness :
    (MustUpdateParameter.init "q" true true none "V" :
        MustUpdateParameter Int).value = none ∧
    (MustUpdateParameter.init "q" true true none "V" :
        MustUpdateParameter Int).latest_value_read = false ∧
    (MustUpdateParameter.init "q" true true none "V" :
        MustUpdateParameter Int).latest_value_in_measurement = false ∧
    check_parameters_updated
        [(MustUpdateParameter.init "q" true true none "V" : MustUpdateParameter Int)] =
      ([markConsumed (MustUpdateParameter.init "q" true true none "V")], none) :=
  c1_fresh_cell_state "q" true true none "V"

/-- C3: counterexample — when the first stale cell is strict and its value was
already read, the sweep's failure is the stale-read error, not a
`StaleParameterError` identifying the cell, its value and its unit. -/
theorem c3_counterexample :
    (check_parameters_updated
        [(⟨"Z", "Z", "V", true, true, true, some (2 : Int), true⟩ :
          MustUpdateParameter Int)]).2 =
      some (QcodesError.staleReadError "Z") := by
  decide

/-- C3 (amended): the sweep processes cells in order and fails fast on the
first cell with `consumedByMeasurement` = true; cells before it are marked
consumed and keep the mark, cells after it are untouched; the failure is a
`StaleParameterError` carrying the cell's label, current value and unit —
unless the offending cell is strict and already read, in which case the
stale-read error from building the message propagates instead; with no stale
cell, every cell ends marked consumed. -/
theorem c3_sweep_fail_fast {α : Type} (pre post : List (MustUpdateParameter α))
    (p : MustUpdateParameter α)
    (hpre : ∀ q ∈ pre, q.latest_value_in_measurement = false)
    (hp : p.latest_value_in_measurement = true) :
    check_parameters_updated (pre ++ p :: post) =
      (if p.latest_value_read = true ∧ p.strict = true then
        (pre.map markConsumed ++ p :: post,
         some (.staleReadError p.name))
      else
        (pre.map markConsumed ++ { p with latest_value_read := true } :: post,
         some (.staleParameterError p.label p.value p.unit))) ∧
    ∀ qs : List (MustUpdateParameter α),
      (∀ q ∈ qs, q.latest_value_in_measurement = false) →
        check_parameters_updated qs = (qs.map markConsumed, none) := by
  constructor
  · rw [check_parameters_updated_append_fresh pre (p :: post) hpre,
        check_parameters_updated_cons_stale p post hp]
    by_cases hr : p.latest_value_read = true ∧ p.strict = true <;> simp [hr]
  · exact check_parameters_updated_all_fresh

/-- C3 (amended) witness: X just set and unconsumed, Y consumed by a prior
sweep and not re-set — the sweep fails with a `StaleParameterError` for Y,
X's consumed flag is true after the call, and Y's stays true. -/
theorem c3_sweep_fail_fast_witness :
    check_parameters_updated
        [(⟨"X", "X", "V", false, false, true, some (1 : Int), true⟩ :
            MustUpdateParameter Int),
         ⟨"Y", "Y", "V", true, false, true, some 2, true⟩] =
      ([⟨"X", "X", "V", true, false, true, some 1, true⟩,
        ⟨"Y", "Y", "V", true, true, true, some 2, true⟩],
       some (QcodesError.staleParameterError "Y" (some 2) "V")) := by
  have h := (c3_sweep_fail_fast
      [(⟨"X", "X", "V", false, false, true, some (1 : Int), true⟩ :
        MustUpdateParameter Int)] []
      ⟨"Y", "Y", "V", true, false, true, some 2, true⟩
      (by decide) rfl).1
  simpa [markConsumed] using h

/-- C10: the sweep's failure message itself performs a `get` on the offending
cell — when that cell is strict and already read, the stale-read error is
raised instead of `StaleParameterError`; otherwise the failed sweep sets the
offending cell's `readSinceSet` flag to true as a side effect. -/
theorem c10_sweep_error_reads_cell {α : Type}
    (pre post : List (MustUpdateParameter α)) (p : MustUpdateParameter α)
    (hpre : ∀ q ∈ pre, q.latest_value_in_measurement = false)
    (hp : p.latest_value_in_measurement = true) :
    ((p.latest_value_read = true ∧ p.strict = true) →
      check_parameters_updated (pre ++ p :: post) =
        (pre.map markConsumed ++ p :: post,
         some (.staleReadError p.name))) ∧
    (¬(p.latest_value_read = true ∧ p.strict = true) →
      check_parameters_updated (pre ++ p :: post) =
        (pre.map markConsumed ++ { p with latest_value_read := true } :: post,
         some (.staleParameterError p.label p.value p.unit))) := by
  rw [check_parameters_updated_append_fresh pre (p :: post) hpre,
      check_parameters_updated_cons_stale p post hp]
  constructor
  · intro hr; rw [if_pos hr]
  · intro hr; rw [if_neg hr]

/-- C10 witness: a strict already-read stale cell makes the sweep raise the
stale-read error with the cell untouched; an unread stale cell gets
`readSinceSet` set to true by the failed check. -/
theorem c10_sweep_error_reads_cell_witness :
    check_parameters_updated
        [(⟨"Z2", "Z2", "u", true, true, true, some (6 : Int), true⟩ :
          MustUpdateParameter Int)] =
      ([⟨"Z2", "Z2", "u", true, true, true, some 6, true⟩],
       some (QcodesError.staleReadError "Z2")) ∧
    check_parameters_updated
        [(⟨"W", "W", "u", true, false, true, some (5 : Int), true⟩ :
          MustUpdateParameter Int)] =
      ([⟨"W", "W", "u", true, true, true, some 5, true⟩],
       some (QcodesError.staleParameterError "W" (some 5) "u")) := by
  constructor
  · have h := (c10_sweep_error_reads_cell []
        [] (⟨"Z2", "Z2", "u", true, true, true, some (6 : Int), true⟩ :
          MustUpdateParameter Int) (by simp) rfl).1 (by decide)
    simpa using h
  · have h := (c10_sweep_error_reads_cell []
        [] (⟨"W", "W", "u", true, false, true, some (5 : Int), true⟩ :
          MustUpdateParameter Int) (by simp) rfl).2 (by decide)
    simpa using h

/-- C4: `set_raw` with `mustDiffer` raises `NonDistinctValueError` when the
new value equals the stored one, leaving the cell unchanged (the error branch
returns no new state); otherwise it stores the value and clears both flags;
in particular a second `set` of the same value fails and the stored value
stays that value. -/
theorem c4_set_semantics {α : Type} [DecidableEq α]
    (c c' : MustUpdateParameter α) (v : Option α) :
    (c.new_value_must_differ = true → c.value = v →
      c.set_raw v = .error .nonDistinctValueError) ∧
    ((c.new_value_must_differ = true → c.value ≠ v) →
      c.set_raw v = .ok { c with
        latest_value_in_measurement := false
        latest_value_read := false
        value := v }) ∧
    (c.set_raw v = .ok c' → c.new_value_must_differ = true →
      c'.set_raw v = .error .nonDistinctValueError ∧ c'.value = v) := by
  refine ⟨?_, ?_, ?_⟩
  · intro hd hv
    simp [MustUpdateParameter.set_raw, hv, hd]
  · intro h
    have hcond : ¬(c.value = v ∧ c.new_value_must_differ = true) := by
      rintro ⟨h1, h2⟩; exact h h2 h1
    simp [MustUpdateParameter.set_raw, hcond]
  · intro hok hd
    have hcond : ¬(c.value = v ∧ c.new_value_must_differ = true) := by
      intro hc
      simp [MustUpdateParameter.set_raw, hc] at hok
    rw [MustUpdateParameter.set_raw, if_neg hcond] at hok
    injection hok with h
    subst h
    exact ⟨by simp [MustUpdateParameter.set_raw, hd], rfl⟩

/-- C4 witness: `set(1)` on a fresh cell succeeds; an immediate second
`set(1)` with `mustDiffer` fails and the stored value remains `1`. -/
theorem c4_set_semantics_witness :
    (MustUpdateParameter.init "p" true true none "" :
        MustUpdateParameter Int).set_raw (some 1) =
      .ok ⟨"p", "p", "", false, false, true, some 1, true⟩ ∧
    (⟨"p", "p", "", false, false, true, some (1 : Int), true⟩ :
        MustUpdateParameter Int).set_raw (some 1) =
      .error .nonDistinctValueError := by
  constructor
  · have h := (c4_set_semantics
        (MustUpdateParameter.init "p" true true none "" : MustUpdateParameter Int)
        (MustUpdateParameter.init "p" true true none "") (some 1)).2.1
      (by intro _ hv; simp [MustUpdateParameter.init] at hv)
    simpa [MustUpdateParameter.init] using h
  · exact ((c4_set_semantics
        (⟨"p", "p", "", false, false, true, some (1 : Int), true⟩ :
          MustUpdateParameter Int)
        ⟨"p", "p", "", false, false, true, some 1, true⟩ (some 1)).1 rfl rfl)

/-- C5: `get_raw` raises the stale-read error when strict and already read,
leaving the cell unchanged; on success it returns the current value and sets
`readSinceSet`; a non-strict cell allows repeated reads that keep returning
the same stored value. -/
theorem c5_get_semantics {α : Type} (c : MustUpdateParameter α) :
    (c.latest_value_read = true → c.strict = true →
      c.get_raw = .error (.staleReadError c.name)) ∧
    (c.latest_value_read = false ∨ c.strict = false →
      c.get_raw = .ok (c.value, { c with latest_value_read := true })) ∧
    (c.strict = false →
      MustUpdateParameter.get_raw { c with latest_value_read := true } =
        .ok (c.value, { c with latest_value_read := true })) := by
  refine ⟨?_, ?_, ?_⟩
  · intro h1 h2
    simp [MustUpdateParameter.get_raw, h1, h2]
  · intro h
    have hcond : ¬(c.latest_value_read = true ∧ c.strict = true) := by
      rcases h with h | h <;> simp [h]
    simp [MustUpdateParameter.get_raw, hcond]
  · intro hs
    simp [MustUpdateParameter.get_raw, hs]

/-- C5 witness: after `set(7)`, the first `get` returns `7`; the second `get`
raises under `strict = true` but returns `7` again under `strict = false`. -/
theorem c5_get_semantics_witness :
    (⟨"p", "p", "", false, false, true, some (7 : Int), true⟩ :
        MustUpdateParameter Int).get_raw =
      .ok (some 7, ⟨"p", "p", "", false, true, true, some 7, true⟩) ∧
    (⟨"p", "p", "", false, true, true, some (7 : Int), true⟩ :
        MustUpdateParameter Int).get_raw =
      .error (.staleReadError "p") ∧
    (⟨"p", "p", "", false, true, true, some (7 : Int), false⟩ :
        MustUpdateParameter Int).get_raw =
      .ok (some 7, ⟨"p", "p", "", false, true, true, some 7, false⟩) := by
  refine ⟨?_, ?_, ?_⟩
  · have h := (c5_get_semantics
        (⟨"p", "p", "", false, false, true, some (7 : Int), true⟩ :
          MustUpdateParameter Int)).2.1 (Or.inl rfl)
    simpa using h
  · exact (c5_get_semantics
        (⟨"p", "p", "", false, true, true, some (7 : Int), true⟩ :
          MustUpdateParameter Int)).1 rfl rfl
  · have h := (c5_get_semantics
        (⟨"p", "p", "", false, true, true, some (7 : Int), false⟩ :
          MustUpdateParameter Int)).2.1 (Or.inr rfl)
    simpa using h

/-- C6: counterexample — the absent state is the same `None` Python uses for
data, so the very first `set(None)` on a fresh cell with `mustDiffer` is
rejected as a non-distinct value. -/
theorem c6_counterexample :
    (MustUpdateParameter.init "p" true true none "" :
        MustUpdateParameter Int).set_raw none =
      .error .nonDistinctValueError := by
  rfl

/-- C6 (amended): the first `set` of any value other than `None` on a fresh
cell with `mustDiffer` = true succeeds, but `set(None)` on a fresh cell is
rejected as non-distinct, because absence is represented by the same `None`
sentinel rather than a marker distinct from every settable value. -/
theorem c6_first_set {α : Type} [DecidableEq α] (nm : String) (st : Bool)
    (lbl : Option String) (u : String) (v : α) :
    (MustUpdateParameter.init nm true st lbl u :
        MustUpdateParameter α).set_raw (some v) =
      .ok { (MustUpdateParameter.init nm true st lbl u : MustUpdateParameter α) with
        latest_value_in_measurement := false
        latest_value_read := false
        value := some v } ∧
    (MustUpdateParameter.init nm true st lbl u :
        MustUpdateParameter α).set_raw none =
      .error .nonDistinctValueError := by
  constructor
  · simp [MustUpdateParameter.init, MustUpdateParameter.set_raw]
  · simp [MustUpdateParameter.init, MustUpdateParameter.set_raw]

/-- C6 (amended) witness at the zero value of `Int`. -/
theorem c6_first_set_witness :
    (MustUpdateParameter.init "p" true true none "" :
        MustUpdateParameter Int).set_raw (some 0) =
      .ok { (MustUpdateParameter.init "p" true true none "" :
              MustUpdateParameter Int) with
        latest_value_in_measurement := false
        latest_value_read := false
        value := some 0 } ∧
    (MustUpdateParameter.init "p" true true none "" :
        MustUpdateParameter Int).set_raw none =
      .error .nonDistinctValueError :=
  c6_first_set "p" true none "" 0

theorem sweepComponents_fst_mem (removeNames ensureNames ns : List String)
    (m : String) :
    m ∈ (sweepComponents removeNames ensureNames ns).1 ↔
      m ∈ ns ∧ m ∈ removeNames ∧ m ∉ ensureNames := by
  induction ns with
  | nil => simp [sweepComponents]
  | cons n rest ih =>
    by_cases h1 : n ∈ removeNames ∧ n ∉ ensureNames
    · simp only [sweepComponents, if_pos h1, List.mem_cons]
      constructor
      · rintro (rfl | hm)
        · exact ⟨Or.inl rfl, h1⟩
        · have := ih.mp hm
          exact ⟨Or.inr this.1, this.2⟩
      · rintro ⟨rfl | hm, h2⟩
        · exact Or.inl rfl
        · exact Or.inr (ih.mpr ⟨hm, h2⟩)
    · by_cases h2 : n ∉ ensureNames
      · simp only [sweepComponents, if_neg h1, if_pos h2, List.mem_cons]
        constructor
        · intro hm
          have := ih.mp hm
          exact ⟨Or.inr this.1, this.2⟩
        · rintro ⟨rfl | hm, h3⟩
          · exact absurd ⟨h3.1, h3.2⟩ h1
          · exact ih.mpr ⟨hm, h3⟩
      · simp only [sweepComponents, if_neg h1, if_neg h2, List.mem_cons]
        constructor
        · intro hm
          have := ih.mp hm
          exact ⟨Or.inr this.1, this.2⟩
        · rintro ⟨rfl | hm, h3⟩
          · exact absurd ⟨h3.1, h3.2⟩ h1
          · exact ih.mpr ⟨hm, h3⟩

theorem sweepComponents_snd_mem (removeNames ensureNames ns : List String)
    (m : String) :
    m ∈ (sweepComponents removeNames ensureNames ns).2 ↔
      m ∈ ns ∧ m ∉ removeNames ∧ m ∉ ensureNames := by
  induction ns with
  | nil => simp [sweepComponents]
  | cons n rest ih =>
    by_cases h1 : n ∈ removeNames ∧ n ∉ ensureNames
    · simp only [sweepComponents, if_pos h1, List.mem_cons]
      constructor
      · intro hm
        have := ih.mp hm
        exact ⟨Or.inr this.1, this.2⟩
      · rintro ⟨rfl | hm, h3⟩
        · exact absurd h1.1 h3.1
        · exact ih.mpr ⟨hm, h3⟩
    · by_cases h2 : n ∉ ensureNames
      · simp only [sweepComponents, if_neg h1, if_pos h2, List.mem_cons]
        have hnr : n ∉ removeNames := fun hr => h1 ⟨hr, h2⟩
        constructor
        · rintro (rfl | hm)
          · exact ⟨Or.inl rfl, hnr, h2⟩
          · have := ih.mp hm
            exact ⟨Or.inr this.1, this.2⟩
        · rintro ⟨rfl | hm, h3⟩
          · exact Or.inl rfl
          · exact Or.inr (ih.mpr ⟨hm, h3⟩)
      · simp only [sweepComponents, if_neg h1, if_neg h2, List.mem_cons]
        have he : n ∈ ensureNames := not_not.mp h2
        constructor
        · intro hm
          have := ih.mp hm
          exact ⟨Or.inr this.1, this.2⟩
        · rintro ⟨rfl | hm, h3⟩
          · exact absurd he h3.2
          · exact ih.mpr ⟨hm, h3⟩

theorem addComponents_fst_names (l st : List Component) (n : String) :
    n ∈ (addComponents st l).1.map Component.name ↔
      n ∈ st.map Component.name ∨ n ∈ l.map Component.name := by
  induction l generalizing st with
  | nil => simp [addComponents]
  | cons c rest ih =>
    by_cases h : c.name ∈ st.map Component.name
    · rw [addComponents, if_pos h]
      rw [ih st]
      simp only [List.map_cons, List.mem_cons]
      constructor
      · rintro (hs | hr)
        · exact Or.inl hs
        · exact Or.inr (Or.inr hr)
      · rintro (hs | rfl | hr)
        · exact Or.inl hs
        · exact Or.inl h
        · exact Or.inr hr
    · rw [addComponents, if_neg h]
      have := ih (st ++ [c])
      simp only [List.map_append, List.mem_append, List.map_cons, List.map_nil,
        List.mem_cons, List.not_mem_nil, or_false] at this
      rw [this]
      simp only [List.map_cons, List.mem_cons]
      tauto

theorem addComponents_noop (l st : List Component)
    (h : ∀ c ∈ l, c.name ∈ st.map Component.name) :
    addComponents st l = (st, []) := by
  induction l with
  | nil => rfl
  | cons c rest ih =>
    rw [addComponents, if_pos (h c (by simp))]
    exact ih (fun c' hc' => h c' (by simp [hc']))

theorem mem_componentsToRemove (configs : List (String × List Component))
    (config : List String) (toEnsure : List Component) (c : Component) :
    c ∈ componentsToRemove configs config toEnsure ↔
      (∃ pr ∈ configs, pr.1 ∉ config ∧ c ∈ pr.2) ∧ c ∉ toEnsure := by
  simp only [componentsToRemove, List.mem_filter, List.mem_flatten,
    List.mem_map, decide_eq_true_eq]
  aesop

theorem lookup_eq_of_mem_of_nodup {β : Type} {l : List (String × β)}
    (hnd : (l.map Prod.fst).Nodup) {k : String} {v : β} (h : (k, v) ∈ l) :
    l.lookup k = some v := by
  induction l with
  | nil => cases h
  | cons p t ih =>
    obtain ⟨k', v'⟩ := p
    rcases List.mem_cons.mp h with heq | ht
    · obtain ⟨rfl, rfl⟩ := Prod.mk.injEq .. ▸ heq
      simp [List.lookup]
    · by_cases hkk : k = k'
      · subst hkk
        exfalso
        have : k ∈ t.map Prod.fst := List.mem_map.mpr ⟨(k, v), ht, rfl⟩
        exact (List.nodup_cons.mp (by simpa using hnd)).1 this
      · have hbeq : (k == k') = false := by
          simpa using hkk
        rw [List.lookup, hbeq]
        exact ih (List.nodup_cons.mp (by simpa using hnd)).2 ht

theorem mem_componentsToEnsure (configs : List (String × List Component))
    (config : List String) (toEnsure : List Component)
    (hE : componentsToEnsure configs config = .ok toEnsure) (c : Component) :
    c ∈ toEnsure ↔
      ∃ k ∈ config, ∃ cs, configs.lookup k = some cs ∧ c ∈ cs := by
  induction config generalizing toEnsure with
  | nil =>
    rw [componentsToEnsure] at hE
    injection hE with hE
    subst hE
    simp
  | cons k ks ih =>
    rw [componentsToEnsure] at hE
    cases hlk : configLookup configs k with
    | error e => rw [hlk] at hE; cases hE
    | ok cs =>
      rw [hlk] at hE
      cases hrest : componentsToEnsure configs ks with
      | error e => rw [hrest] at hE; cases hE
      | ok rest =>
        rw [hrest] at hE
        injection hE with hE
        subst hE
        have hlk' : configs.lookup k = some cs := by
          rw [configLookup] at hlk
          cases h : configs.lookup k with
          | none => rw [h] at hlk; cases hlk
          | some cs' => rw [h] at hlk; injection hlk with hlk; rw [hlk]
        simp only [List.mem_append, List.mem_cons]
        rw [ih rest hrest]
        constructor
        · rintro (hc | ⟨k', hk', cs', hcs', hc'⟩)
          · exact ⟨k, Or.inl rfl, cs, hlk', hc⟩
          · exact ⟨k', Or.inr hk', cs', hcs', hc'⟩
        · rintro ⟨k', rfl | hk', cs', hcs', hc'⟩
          · rw [hlk'] at hcs'
            injection hcs' with hcs'
            subst hcs'
            exact Or.inl hc'
          · exact Or.inr ⟨k', hk', cs', hcs', hc'⟩

theorem componentsToEnsure_subset (configs : List (String × List Component))
    (A B : List String) (ensA ensB : List Component)
    (hAB : ∀ k ∈ A, k ∈ B)
    (hA : componentsToEnsure configs A = .ok ensA)
    (hB : componentsToEnsure configs B = .ok ensB) :
    ∀ c ∈ ensA, c ∈ ensB := by
  intro c hc
  obtain ⟨k, hk, cs, hcs, hc'⟩ := (mem_componentsToEnsure configs A ensA hA c).mp hc
  exact (mem_componentsToEnsure configs B ensB hB c).mpr ⟨k, hAB k hk, cs, hcs, hc'⟩

theorem adjust_ok_elim {configs : List (String × List Component)}
    {config : List String} {st : List Component} {r : AdjustResult}
    (h : adjust_station_to_meas_setup configs config st = .ok r) :
    ∃ toEnsure, componentsToEnsure configs config = .ok toEnsure ∧
      r = adjustCore configs config st toEnsure := by
  cases hE : componentsToEnsure configs config with
  | error e =>
    rw [adjust_station_to_meas_setup, hE] at h
    cases h
  | ok ens =>
    rw [adjust_station_to_meas_setup, hE] at h
    injection h with h
    exact ⟨ens, rfl, h.symm⟩

theorem mem_map_name_filter (st : List Component) (mr : List String) (n : String) :
    n ∈ (st.filter (fun c => decide (c.name ∉ mr))).map Component.name ↔
      n ∈ st.map Component.name ∧ n ∉ mr := by
  simp only [List.mem_map, List.mem_filter, decide_eq_true_eq]
  constructor
  · rintro ⟨c, ⟨hc, hn⟩, rfl⟩
    exact ⟨⟨c, hc, rfl⟩, hn⟩
  · rintro ⟨⟨c, hc, rfl⟩, hn⟩
    exact ⟨c, ⟨hc, hn⟩, rfl⟩

theorem adjustCore_station_names (configs : List (String × List Component))
    (config : List String) (st toEnsure : List Component) (n : String) :
    n ∈ (adjustCore configs config st toEnsure).station.map Component.name ↔
      (n ∈ st.map Component.name ∧
        ¬(n ∈ (componentsToRemove configs config toEnsure).map Component.name ∧
          n ∉ toEnsure.map Component.name)) ∨
      n ∈ toEnsure.map Component.name := by
  have hshow : (adjustCore configs config st toEnsure).station =
      (addComponents
        (st.filter (fun c => decide (c.name ∉
          (sweepComponents
            ((componentsToRemove configs config toEnsure).map Component.name)
            (toEnsure.map Component.name) (st.map Component.name)).1)))
        toEnsure.dedup).1 := rfl
  rw [hshow, addComponents_fst_names, mem_map_name_filter]
  have hd : n ∈ toEnsure.dedup.map Component.name ↔
      n ∈ toEnsure.map Component.name := by
    simp [List.mem_map]
  have hs := sweepComponents_fst_mem
    ((componentsToRemove configs config toEnsure).map Component.name)
    (toEnsure.map Component.name) (st.map Component.name) n
  rw [hd]
  tauto

theorem adjustCore_removed_mem (configs : List (String × List Component))
    (config : List String) (st toEnsure : List Component) (m : String) :
    m ∈ (adjustCore configs config st toEnsure).removed ↔
      m ∈ st.map Component.name ∧
      m ∈ (componentsToRemove configs config toEnsure).map Component.name ∧
      m ∉ toEnsure.map Component.name := by
  have hshow : (adjustCore configs config st toEnsure).removed =
      (sweepComponents
        ((componentsToRemove configs config toEnsure).map Component.name)
        (toEnsure.map Component.name) (st.map Component.name)).1 := rfl
  rw [hshow, sweepComponents_fst_mem]

theorem adjustCore_warnings_mem (configs : List (String × List Component))
    (config : List String) (st toEnsure : List Component) (m : String) :
    m ∈ (adjustCore configs config st toEnsure).warnings ↔
      m ∈ st.map Component.name ∧
      m ∉ (componentsToRemove configs config toEnsure).map Component.name ∧
      m ∉ toEnsure.map Component.name := by
  have hshow : (adjustCore configs config st toEnsure).warnings =
      (sweepComponents
        ((componentsToRemove configs config toEnsure).map Component.name)
        (toEnsure.map Component.name) (st.map Component.name)).2 := rfl
  rw [hshow, sweepComponents_snd_mem]

theorem tracked_name_in_remove (configs : List (String × List Component))
    (config : List String) (toEnsure : List Component)
    (hnd : (configs.map Prod.fst).Nodup)
    (hE : componentsToEnsure configs config = .ok toEnsure)
    {k : String} {cs : List Component} {c : Component}
    (hk : (k, cs) ∈ configs) (hc : c ∈ cs)
    (hne : c.name ∉ toEnsure.map Component.name) :
    c.name ∈ (componentsToRemove configs config toEnsure).map Component.name := by
  by_cases hkc : k ∈ config
  · exfalso
    have hlk := lookup_eq_of_mem_of_nodup hnd hk
    have hmem : c ∈ toEnsure :=
      (mem_componentsToEnsure configs config toEnsure hE c).mpr ⟨k, hkc, cs, hlk, hc⟩
    exact hne (List.mem_map.mpr ⟨c, hmem, rfl⟩)
  · have hcne : c ∉ toEnsure := fun hmem => hne (List.mem_map.mpr ⟨c, hmem, rfl⟩)
    have hmem : c ∈ componentsToRemove configs config toEnsure :=
      (mem_componentsToRemove configs config toEnsure c).mpr
        ⟨⟨(k, cs), hk, hkc, hc⟩, hcne⟩
    exact List.mem_map.mpr ⟨c, hmem, rfl⟩

theorem adjustCore_station_eq (configs : List (String × List Component))
    (config : List String) (st toEnsure : List Component) :
    (adjustCore configs config st toEnsure).station =
      (addComponents
        (st.filter (fun c => decide (c.name ∉
          (sweepComponents
            ((componentsToRemove configs config toEnsure).map Component.name)
            (toEnsure.map Component.name) (st.map Component.name)).1)))
        toEnsure.dedup).1 :=
  rfl

theorem adjustCore_removed_eq (configs : List (String × List Component))
    (config : List String) (st toEnsure : List Component) :
    (adjustCore configs config st toEnsure).removed =
      (sweepComponents
        ((componentsToRemove configs config toEnsure).map Component.name)
        (toEnsure.map Component.name) (st.map Component.name)).1 :=
  rfl

theorem adjustCore_added_eq (configs : List (String × List Component))
    (config : List String) (st toEnsure : List Component) :
    (adjustCore configs config st toEnsure).added =
      (addComponents
        (st.filter (fun c => decide (c.name ∉
          (sweepComponents
            ((componentsToRemove configs config toEnsure).map Component.name)
            (toEnsure.map Component.name) (st.map Component.name)).1)))
        toEnsure.dedup).2 :=
  rfl

/-- C2: counterexample — with an untracked live component `ghost`, the
reconciliation does not abort with the registry unmodified: the single,
non-configurable behavior warns about `ghost` and still performs the
remaining remove and ensure steps (removing `B`, adding `A`). -/
theorem c2_counterexample :
    adjust_station_to_meas_setup
        [("p", [⟨"A", 0⟩]), ("q", [⟨"B", 1⟩])] ["p"]
        [⟨"ghost", 7⟩, ⟨"B", 1⟩] =
      .ok ⟨[⟨"ghost", 7⟩, ⟨"A", 0⟩], ["B"], [⟨"A", 0⟩], ["ghost"]⟩ ∧
    ([⟨"ghost", 7⟩, ⟨"A", 0⟩] : List Component) ≠ [⟨"ghost", 7⟩, ⟨"B", 1⟩] := by
  exact ⟨rfl, by decide⟩

/-- C2 (amended): a live registry component whose name matches neither the
active-profile union nor the inactive-profile union is reported with a
warning and reconciliation continues — the call still succeeds, the
untracked component stays in the registry, and the remaining ensure/remove
steps run; no configurable hard-fail severity exists in the code. -/
theorem c2_untracked_warn_and_continue
    (configs : List (String × List Component)) (config : List String)
    (st : List Component) (r : AdjustResult) (toEnsure : List Component)
    (n : String)
    (hr : adjust_station_to_meas_setup configs config st = .ok r)
    (hE : componentsToEnsure configs config = .ok toEnsure)
    (hn : n ∈ st.map Component.name)
    (h1 : n ∉ toEnsure.map Component.name)
    (h2 : n ∉ (componentsToRemove configs config toEnsure).map Component.name) :
    n ∈ r.warnings ∧ n ∈ r.station.map Component.name := by
  obtain ⟨ens', hE', hr'⟩ := adjust_ok_elim hr
  rw [hE] at hE'
  injection hE' with hE'
  subst hE'
  subst hr'
  constructor
  · exact (adjustCore_warnings_mem configs config st toEnsure n).mpr ⟨hn, h2, h1⟩
  · exact (adjustCore_station_names configs config st toEnsure n).mpr
      (Or.inl ⟨hn, fun hc => h2 hc.1⟩)

/-- C2 (amended) witness: the `ghost` component is warned about and kept
while reconciliation completes. -/
theorem c2_untracked_warn_and_continue_witness :
    "ghost" ∈ (⟨[⟨"ghost", 7⟩, ⟨"A", 0⟩], ["B"], [⟨"A", 0⟩], ["ghost"]⟩ :
        AdjustResult).warnings ∧
    "ghost" ∈ ([⟨"ghost", 7⟩, ⟨"A", 0⟩] : List Component).map Component.name :=
  c2_untracked_warn_and_continue
    [("p", [⟨"A", 0⟩]), ("q", [⟨"B", 1⟩])] ["p"]
    [⟨"ghost", 7⟩, ⟨"B", 1⟩]
    ⟨[⟨"ghost", 7⟩, ⟨"A", 0⟩], ["B"], [⟨"A", 0⟩], ["ghost"]⟩
    [⟨"A", 0⟩] "ghost" rfl rfl (by decide) (by decide) (by decide)

/-- C7: counterexample — with catalogue `{a: [A]}` and active sets
`[] ⊆ [a]`, starting from a registry holding an untracked `ghost`,
reconciling to `[]` and then to `[a]` leaves `ghost` in the registry, so the
final contents are not exactly the component-name union of the profiles
named in the superset. -/
theorem c7_counterexample :
    adjust_station_to_meas_setup [("a", [⟨"A", 0⟩])] [] [⟨"ghost", 7⟩] =
      .ok ⟨[⟨"ghost", 7⟩], [], [], ["ghost"]⟩ ∧
    adjust_station_to_meas_setup [("a", [⟨"A", 0⟩])] ["a"] [⟨"ghost", 7⟩] =
      .ok ⟨[⟨"ghost", 7⟩, ⟨"A", 0⟩], [], [⟨"A", 0⟩], ["ghost"]⟩ ∧
    componentsToEnsure [("a", [⟨"A", 0⟩])] ["a"] = .ok [⟨"A", 0⟩] ∧
    "ghost" ∈ ([⟨"ghost", 7⟩, ⟨"A", 0⟩] : List Component).map Component.name ∧
    "ghost" ∉ ([⟨"A", 0⟩] : List Component).map Component.name := by
  exact ⟨rfl, rfl, rfl, by decide, by decide⟩

/-- C7 (amended): when the catalogue's profile names are unique keys and
every component initially in the registry is referenced by some profile (in
particular, starting from an empty registry), reconciling to `A` and then to
a superset `B` yields a registry whose component names are exactly the
component-name union of the profiles named in `B`, and the second call
removes nothing — only additions occur in the `A`-to-`B` transition. -/
theorem c7_superset_monotonic
    (configs : List (String × List Component)) (A B : List String)
    (st ensB : List Component) (r1 r2 : AdjustResult)
    (hnd : (configs.map Prod.fst).Nodup)
    (hAB : ∀ k ∈ A, k ∈ B)
    (hB : componentsToEnsure configs B = .ok ensB)
    (htr : ∀ c ∈ st, ∃ k cs, (k, cs) ∈ configs ∧ c.name ∈ cs.map Component.name)
    (h1 : adjust_station_to_meas_setup configs A st = .ok r1)
    (h2 : adjust_station_to_meas_setup configs B r1.station = .ok r2) :
    (∀ n, n ∈ r2.station.map Component.name ↔ n ∈ ensB.map Component.name) ∧
    r2.removed = [] := by
  obtain ⟨ensA, hA, hr1⟩ := adjust_ok_elim h1
  obtain ⟨ensB', hB', hr2⟩ := adjust_ok_elim h2
  rw [hB] at hB'
  injection hB' with hB'
  subst hB'
  have hsub1 : ∀ n, n ∈ r1.station.map Component.name →
      n ∈ ensA.map Component.name := by
    intro n hn
    rw [hr1] at hn
    rcases (adjustCore_station_names configs A st ensA n).mp hn with
      ⟨hst, hncond⟩ | hens
    · by_contra hne
      obtain ⟨c, hc, rfl⟩ := List.mem_map.mp hst
      obtain ⟨k, cs, hk, hcs⟩ := htr c hc
      obtain ⟨c', hc', hcn'⟩ := List.mem_map.mp hcs
      have hrm := tracked_name_in_remove configs A ensA hnd hA hk hc'
        (by rw [hcn']; exact hne)
      rw [hcn'] at hrm
      exact hncond ⟨hrm, hne⟩
    · exact hens
  have hsub : ∀ n, n ∈ r1.station.map Component.name →
      n ∈ ensB.map Component.name := by
    intro n hn
    obtain ⟨c, hc, rfl⟩ := List.mem_map.mp (hsub1 n hn)
    exact List.mem_map.mpr
      ⟨c, componentsToEnsure_subset configs A B ensA ensB hAB hA hB c hc, rfl⟩
  subst hr2
  constructor
  · intro n
    rw [adjustCore_station_names]
    constructor
    · rintro (⟨hst, h⟩ | hens)
      · exact hsub n hst
      · exact hens
    · intro hens
      exact Or.inr hens
  · rw [List.eq_nil_iff_forall_not_mem]
    intro m hm
    rw [adjustCore_removed_mem] at hm
    exact hm.2.2 (hsub m hm.1)

/-- C7 (amended) witness on the spec's cooldown/warm catalogue starting from
an empty registry. -/
theorem c7_superset_monotonic_witness :
    ("C" ∈ ([⟨"A", 0⟩, ⟨"B", 1⟩, ⟨"C", 2⟩] : List Component).map Component.name ↔
      "C" ∈ ([⟨"A", 0⟩, ⟨"B", 1⟩, ⟨"B", 1⟩, ⟨"C", 2⟩] :
        List Component).map Component.name) ∧
    (⟨[⟨"A", 0⟩, ⟨"B", 1⟩, ⟨"C", 2⟩], [], [⟨"C", 2⟩], []⟩ :
      AdjustResult).removed = [] := by
  have h := c7_superset_monotonic
    [("c", [⟨"A", 0⟩, ⟨"B", 1⟩]), ("w", [⟨"B", 1⟩, ⟨"C", 2⟩])]
    ["c"] ["c", "w"] []
    [⟨"A", 0⟩, ⟨"B", 1⟩, ⟨"B", 1⟩, ⟨"C", 2⟩]
    ⟨[⟨"A", 0⟩, ⟨"B", 1⟩], [], [⟨"A", 0⟩, ⟨"B", 1⟩], []⟩
    ⟨[⟨"A", 0⟩, ⟨"B", 1⟩, ⟨"C", 2⟩], [], [⟨"C", 2⟩], []⟩
    (by decide) (by decide) rfl (by simp) rfl rfl
  exact ⟨h.1 "C", h.2⟩

/-- C8: reconciling twice with the same active names and no registry
mutation in between leaves the registry unchanged after the second call,
which removes nothing and adds nothing. -/
theorem c8_idempotent
    (configs : List (String × List Component)) (config : List String)
    (st : List Component) (r1 r2 : AdjustResult)
    (h1 : adjust_station_to_meas_setup configs config st = .ok r1)
    (h2 : adjust_station_to_meas_setup configs config r1.station = .ok r2) :
    r2.station = r1.station ∧ r2.removed = [] ∧ r2.added = [] := by
  obtain ⟨ens, hE, hr1⟩ := adjust_ok_elim h1
  obtain ⟨ens', hE', hr2⟩ := adjust_ok_elim h2
  rw [hE] at hE'
  injection hE' with hE'
  subst hE'
  have hkey : ∀ n ∈ r1.station.map Component.name,
      ¬(n ∈ (componentsToRemove configs config ens).map Component.name ∧
        n ∉ ens.map Component.name) := by
    intro n hn
    rw [hr1] at hn
    rcases (adjustCore_station_names configs config st ens n).mp hn with
      ⟨_, hc⟩ | hens
    · exact hc
    · exact fun hc => hc.2 hens
  have hmr : (sweepComponents
      ((componentsToRemove configs config ens).map Component.name)
      (ens.map Component.name) (r1.station.map Component.name)).1 = [] := by
    rw [List.eq_nil_iff_forall_not_mem]
    intro m hm
    rw [sweepComponents_fst_mem] at hm
    exact hkey m hm.1 ⟨hm.2.1, hm.2.2⟩
  have hens : ∀ c ∈ ens.dedup, c.name ∈ r1.station.map Component.name := by
    intro c hc
    rw [hr1]
    exact (adjustCore_station_names configs config st ens c.name).mpr
      (Or.inr (List.mem_map.mpr ⟨c, List.mem_dedup.mp hc, rfl⟩))
  have hst1 : r1.station.filter (fun c => decide (c.name ∉
      (sweepComponents
        ((componentsToRemove configs config ens).map Component.name)
        (ens.map Component.name) (r1.station.map Component.name)).1)) =
      r1.station := by
    rw [hmr]
    apply List.filter_eq_self.mpr
    intro c _
    simp
  have hadd := addComponents_noop ens.dedup r1.station hens
  subst hr2
  refine ⟨?_, ?_, ?_⟩
  · rw [adjustCore_station_eq, hst1, hadd]
  · rw [adjustCore_removed_eq, hmr]
  · rw [adjustCore_added_eq, hst1, hadd]

/-- C8 witness: the second reconcile to the same profile leaves the registry
as it was and performs no removal and no addition. -/
theorem c8_idempotent_witness :
    (⟨[⟨"A", 0⟩, ⟨"B", 1⟩], [], [], []⟩ : AdjustResult).station =
      (⟨[⟨"A", 0⟩, ⟨"B", 1⟩], [], [⟨"A", 0⟩, ⟨"B", 1⟩], []⟩ :
        AdjustResult).station ∧
    (⟨[⟨"A", 0⟩, ⟨"B", 1⟩], [], [], []⟩ : AdjustResult).removed = [] ∧
    (⟨[⟨"A", 0⟩, ⟨"B", 1⟩], [], [], []⟩ : AdjustResult).added = [] :=
  c8_idempotent
    [("c", [⟨"A", 0⟩, ⟨"B", 1⟩]), ("w", [⟨"B", 1⟩, ⟨"C", 2⟩])]
    ["c"] []
    ⟨[⟨"A", 0⟩, ⟨"B", 1⟩], [], [⟨"A", 0⟩, ⟨"B", 1⟩], []⟩
    ⟨[⟨"A", 0⟩, ⟨"B", 1⟩], [], [], []⟩
    rfl rfl

/-- C9: a component whose name is referenced by at least one active profile
is never among the names the reconciliation removes, no matter how many
inactive profiles also reference it. -/
theorem c9_active_never_removed
    (configs : List (String × List Component)) (config : List String)
    (st : List Component) (r : AdjustResult)
    (k : String) (cs : List Component) (c : Component)
    (h : adjust_station_to_meas_setup configs config st = .ok r)
    (hk : k ∈ config) (hcs : configs.lookup k = some cs) (hc : c ∈ cs) :
    c.name ∉ r.removed := by
  obtain ⟨ens, hE, hr⟩ := adjust_ok_elim h
  subst hr
  intro hmem
  rw [adjustCore_removed_mem] at hmem
  have hens : c ∈ ens :=
    (mem_componentsToEnsure configs config ens hE c).mpr ⟨k, hk, cs, hcs, hc⟩
  exact hmem.2.2 (List.mem_map.mpr ⟨c, hens, rfl⟩)

/-- C9 witness: `B` is referenced by the active `c` profile and by the
inactive `w` profile; the reconcile run removes `C` but not `B`. -/
theorem c9_active_never_removed_witness :
    (⟨"B", 1⟩ : Component).name ∉
      (⟨[⟨"B", 1⟩, ⟨"A", 0⟩], ["C"], [⟨"A", 0⟩], []⟩ : AdjustResult).removed :=
  c9_active_never_removed
    [("c", [⟨"A", 0⟩, ⟨"B", 1⟩]), ("w", [⟨"B", 1⟩, ⟨"C", 2⟩])]
    ["c"] [⟨"B", 1⟩, ⟨"C", 2⟩]
    ⟨[⟨"B", 1⟩, ⟨"A", 0⟩], ["C"], [⟨"A", 0⟩], []⟩
    "c" [⟨"A", 0⟩, ⟨"B", 1⟩] ⟨"B", 1⟩
    rfl (by decide) rfl (by decide)
